import Mathlib

/-!
# calaos_dns: a verification development

Shallow embedding of the dynamic-DNS registration engine (`models/models.go`)
and of the host-name validators (`calaos_ddns/haproxy/haconfig.go`).
-/

set_option autoImplicit false

/-! ## Regular expressions, as far as the validators use them -/

namespace regexp

/-- Fragment of the regular-expression language that the patterns of the
validators are written in: `^`, `$`, a character class, concatenation and the
counted repetition `r{lo,hi}`. -/
inductive Re where
  | bot : Re
  | eot : Re
  | cls : (Char → Bool) → Re
  | seq : Re → Re → Re
  | rep : Re → Nat → Nat → Re

/-- A position in the text under match: the number of characters already
passed, and the characters still ahead. -/
abbrev Pos := Nat × List Char

/-- All positions reached by applying `f` between `lo` and `hi` times. -/
def iterRange (f : Pos → List Pos) : Nat → Nat → Pos → List Pos
  | lo, 0, s => if lo = 0 then [s] else []
  | lo, hi + 1, s =>
    (if lo = 0 then [s] else []) ++ (f s).flatMap (iterRange f (lo - 1) hi)

/-- All positions at which a match of the expression that starts at the given
position can end. `^` holds only where nothing has been passed, `$` only
where nothing is ahead (no multi-line flag). -/
def Re.run : Re → Pos → List Pos
  | .bot, s => if s.1 = 0 then [s] else []
  | .eot, s => if s.2.isEmpty then [s] else []
  | .cls p, s =>
    match s.2 with
    | [] => []
    | c :: cs => if p c then [(s.1 + 1, cs)] else []
  | .seq a b, s => (a.run s).flatMap b.run
  | .rep r lo hi, s => iterRange r.run lo hi s

/-- The start positions of a text: one for every suffix. -/
def starts : Nat → List Char → List Pos
  | i, [] => [(i, [])]
  | i, c :: cs => (i, c :: cs) :: starts (i + 1) cs

/-- Embedding of `regexp.Match(pattern, text)`: the text contains a match of
the pattern, starting anywhere. The text is taken as its sequence of
characters; the characters of the class `[a-z0-9]` are one byte each, so the
counts of the patterns are the same in bytes and in characters. -/
def Match (re : Re) (b : List Char) : Bool :=
  (starts 0 b).any (fun s => !(re.run s).isEmpty)

/-- The character class `[a-z0-9]`. -/
def lowerAlnum (c : Char) : Bool :=
  ('a' ≤ c && c ≤ 'z') || ('0' ≤ c && c ≤ '9')

end regexp

/-! ## The validators of `haproxy/haconfig.go` -/

namespace haproxy

open regexp

/-- Embedding of `isValidHostname`: the pattern `^[a-z0-9]{4,32}$`. -/
def isValidHostname (host : String) : Bool :=
  Match (.seq .bot (.seq (.rep (.cls lowerAlnum) 4 32) .eot)) host.toList

/-- Embedding of `isValidSubHostname`: the pattern `^[a-z0-9]{2,32}$`. -/
def isValidSubHostname (host : String) : Bool :=
  Match (.seq .bot (.seq (.rep (.cls lowerAlnum) 2 32) .eot)) host.toList

end haproxy


/-! ## The registration engine of `models/models.go` -/

namespace strings

/-- Pieces of a character list between occurrences of the separator. -/
def splitChars (sep : Char) : List Char → List (List Char)
  | [] => [[]]
  | c :: cs =>
    if c = sep then [] :: splitChars sep cs
    else
      match splitChars sep cs with
      | [] => [[c]]
      | p :: ps => (c :: p) :: ps

/-- Embedding of `strings.Split(s, sep)` for a separator of one character
(the engine only ever splits at `","`). `Split("", ",")` is `[""]`. -/
def Split (s : String) (sep : Char) : List String :=
  (splitChars sep s.toList).map String.mk

end strings

namespace models

/-- Row of the `Host` table. `UpdatedAt` is an instant on an integer time
line. -/
structure Host where
  ID : Int
  Hostname : String
  Subzones : String
  IP : String
  Token : String
  UpdatedAt : Int
  deriving DecidableEq, Repr

/-- Zero value of the row type, as declared by `var h Host`. -/
def Host.zero : Host := ⟨0, "", "", "", "", 0⟩

/-- Resource-record set of the remote zone. -/
structure RRset where
  name : String
  rtype : String
  ttl : Nat
  content : List String
  deriving DecidableEq, Repr

/-- Calls the engine issues to its two collaborators, the record store and the
zone provider. -/
inductive Call where
  | FindAll
  | FindOneByQuery (field value : String)
  | Create (h : Host)
  | Save (h : Host)
  | Delete (h : Host)
  | GetZone (zone : String)
  | AddRecord (name rtype : String) (ttl : Nat) (content : List String)
  | ChangeRecord (name rtype : String) (ttl : Nat) (content : List String)
  | DeleteRecord (name rtype : String)
  deriving DecidableEq, Repr

/-- Error values: one made by `fmt.Errorf`, or the error of a store call
handed on unchanged. -/
inductive Failure where
  | Errorf (msg : String)
  | store
  deriving DecidableEq, Repr

/-- The settings read from `config.Conf`. -/
structure Conf where
  Zone : String
  Blacklist : List String
  ExpirationDays : Int

/-- What the engine takes from outside `models.go`: the configuration, the
validator and the token generator of package `models` (their file is not among
the sources, so they are parameters), the clock, and `time.AddDate`. -/
structure Env where
  conf : Conf
  isValidHostname : String → String × Bool
  tokenGenerator : Nat → String
  now : Int
  AddDate : Int → Int → Int → Int → Int

/-- State of the world around the engine: the rows of the store and its next
primary key, the record sets of the remote zone, the number of tokens drawn so
far, the calls issued so far (oldest first), and the outcomes of the calls to
come (`true`: the call succeeds; an exhausted script means success). -/
structure World where
  rows : List Host
  nextID : Int
  records : List RRset
  seed : Nat
  trace : List Call
  outcomes : List Bool

/-- Issue one call: log it and take its outcome from the script. -/
def World.call (w : World) (c : Call) : Bool × World :=
  match w.outcomes with
  | [] => (true, { w with trace := w.trace ++ [c] })
  | b :: bs => (b, { w with trace := w.trace ++ [c], outcomes := bs })

/-- Draw a token from the generator. -/
def tokenGenerator (env : Env) (w : World) : String × World :=
  (env.tokenGenerator w.seed, { w with seed := w.seed + 1 })

/-- Modelled from the spec: `stringInSlice` (its file is not among the
sources), the deny-list check, an exact match against the list. -/
def stringInSlice (a : String) (list : List String) : Bool :=
  list.contains a

/-- Value of the named column of a row. -/
def Host.field (h : Host) (name : String) : String :=
  if name = "Hostname" then h.Hostname
  else if name = "Token" then h.Token
  else if name = "Subzones" then h.Subzones
  else if name = "IP" then h.IP
  else ""

namespace orm

/-- Modelled from the spec: `orm.FindAll` (package `orm` is not among the
sources), `find_all() -> ([]Host, error)`. -/
def FindAll (w : World) : Option (List Host) × World :=
  let r := w.call .FindAll
  if r.1 then (some r.2.rows, r.2) else (none, r.2)

/-- Modelled from the spec: `orm.FindOneByQuery` with a one-entry field map,
`find_one_by(field_map) -> (Host, error)`, failing when zero rows match. -/
def FindOneByQuery (field value : String) (w : World) : Option Host × World :=
  let r := w.call (.FindOneByQuery field value)
  if r.1 then (r.2.rows.find? (fun h => h.field field == value), r.2) else (none, r.2)

/-- Modelled from the spec: `orm.Create`, `create(Host) -> error`; the stored
row gets the next primary key and `updated_at = now`, and both are written back
to the caller's struct. A failed call changes nothing. -/
def Create (env : Env) (h : Host) (w : World) : Bool × Host × World :=
  let r := w.call (.Create h)
  if r.1 then
    let h1 := { h with ID := r.2.nextID, UpdatedAt := env.now }
    (true, h1, { r.2 with rows := r.2.rows ++ [h1], nextID := r.2.nextID + 1 })
  else (false, h, r.2)

/-- Modelled from the spec: `orm.Save`, `save(Host) -> error`, a full-record
upsert keyed on the primary key, refreshing `updated_at`. -/
def Save (env : Env) (h : Host) (w : World) : Bool × Host × World :=
  let r := w.call (.Save h)
  if r.1 then
    if r.2.rows.any (fun x => x.ID == h.ID) then
      let h1 := { h with UpdatedAt := env.now }
      (true, h1, { r.2 with rows := r.2.rows.map (fun x => if x.ID = h.ID then h1 else x) })
    else
      let h1 := { h with ID := r.2.nextID, UpdatedAt := env.now }
      (true, h1, { r.2 with rows := r.2.rows ++ [h1], nextID := r.2.nextID + 1 })
  else (false, h, r.2)

/-- Modelled from the spec: `orm.Delete`, `delete(Host) -> error`, removing
the row with the primary key of the given Host. -/
def Delete (h : Host) (w : World) : Bool × World :=
  let r := w.call (.Delete h)
  if r.1 then (true, { r.2 with rows := r.2.rows.filter (fun x => x.ID != h.ID) })
  else (false, r.2)

end orm

namespace powerdns

/-- The record sets other than the one of the given name and type. -/
def without (name rtype : String) (rs : List RRset) : List RRset :=
  rs.filter (fun r => !(r.name == name && r.rtype == rtype))

/-- The zone provider's `GetZone`: the handle is not represented, only the
outcome of the call. -/
def GetZone (zone : String) (w : World) : Bool × World :=
  w.call (.GetZone zone)

/-- The zone provider's `AddRecord`: on success the record set of that name
and type is the given one. A failed call changes nothing. -/
def AddRecord (name rtype : String) (ttl : Nat) (content : List String) (w : World) :
    Bool × World :=
  let r := w.call (.AddRecord name rtype ttl content)
  if r.1 then
    (true, { r.2 with records := without name rtype r.2.records ++ [⟨name, rtype, ttl, content⟩] })
  else (false, r.2)

/-- The zone provider's `ChangeRecord`: on success the record set of that name
and type is the given one. A failed call changes nothing. -/
def ChangeRecord (name rtype : String) (ttl : Nat) (content : List String) (w : World) :
    Bool × World :=
  let r := w.call (.ChangeRecord name rtype ttl content)
  if r.1 then
    (true, { r.2 with records := without name rtype r.2.records ++ [⟨name, rtype, ttl, content⟩] })
  else (false, r.2)

/-- The zone provider's `DeleteRecord`: on success no record set of that name
and type is left. A failed call changes nothing. -/
def DeleteRecord (name rtype : String) (w : World) : Bool × World :=
  let r := w.call (.DeleteRecord name rtype)
  if r.1 then (true, { r.2 with records := without name rtype r.2.records }) else (false, r.2)

end powerdns

/-- The loop `for _, s := range subs` that deletes the record of every
subzone, going on after a failure. -/
def deleteSubzones (z : String) : List String → World → World
  | [], w => w
  | s :: subs, w => deleteSubzones z subs (powerdns.DeleteRecord (s ++ "." ++ z) "A" w).2

/-- The loop `for _, s := range subs` that adds the record of every subzone
and stops at the first failure; the flag tells whether all adds succeeded. -/
def addSubzones (z ip : String) : List String → World → Bool × World
  | [], w => (true, w)
  | s :: subs, w =>
    let r := powerdns.AddRecord (s ++ "." ++ z) "A" 60 [ip] w
    if r.1 then addSubzones z ip subs r.2 else (false, r.2)

/-- The loop `for _, s := range subs` of `UpdateDns` that changes the record
of every subzone, going on after a failure. -/
def changeSubzones (z ip : String) : List String → World → World
  | [], w => w
  | s :: subs, w =>
    changeSubzones z ip subs (powerdns.ChangeRecord (s ++ "." ++ z) "A" 60 [ip] w).2

/-- Embedding of `deleteHost`: the zone lookup (a failure is only logged), the
delete of every subzone record, the delete of the main record, then the
removal of the row; the result is the error of the removal. -/
def deleteHost (env : Env) (h : Host) (w : World) : Option Failure × World :=
  let w1 := (powerdns.GetZone env.conf.Zone w).2
  let z := h.Hostname ++ "." ++ env.conf.Zone
  let w2 := if h.Subzones ≠ "" then deleteSubzones z (strings.Split h.Subzones ',') w1 else w1
  let w3 := (powerdns.DeleteRecord z "A" w2).2
  let r := orm.Delete h w3
  (if r.1 then none else some Failure.store, r.2)

/-- Embedding of `RegisterDns`; the result is `(err, newToken)`. -/
def RegisterDns (env : Env) (mainzone subzone token ip : String) (w : World) :
    (Option Failure × String) × World :=
  let newToken := ""
  if mainzone = "" then ((some (.Errorf "Mainzone is empty"), newToken), w) else
  let valid := (env.isValidHostname mainzone).2
  let mainzone := (env.isValidHostname mainzone).1
  if !valid then ((some (.Errorf "Invalid hostname"), newToken), w) else
  if stringInSlice mainzone env.conf.Blacklist then
    ((some (.Errorf "Invalid hostname"), newToken), w) else
  if subzone ≠ "" ∧ !(strings.Split subzone ',').all (fun s => (env.isValidHostname s).2) then
    ((some (.Errorf "Invalid hostname"), newToken), w) else
  let q := orm.FindOneByQuery "Hostname" mainzone w
  let h := q.1.getD Host.zero
  let z := mainzone ++ "." ++ env.conf.Zone
  let g := powerdns.GetZone env.conf.Zone q.2
  if !g.1 then ((some (.Errorf "Internal error"), newToken), g.2) else
  if token = "" then
    if q.1.isSome then ((some (.Errorf "Host already registered"), newToken), g.2) else
    let t := tokenGenerator env g.2
    let h := { h with Hostname := mainzone, Subzones := subzone, IP := ip, Token := t.1 }
    let c := orm.Create env h t.2
    if !c.1 then ((some (.Errorf "Internal error"), newToken), c.2.2) else
    let h := c.2.1
    let a := powerdns.AddRecord z "A" 60 [ip] c.2.2
    if !a.1 then ((some (.Errorf "Internal error"), newToken), (deleteHost env h a.2).2) else
    let b := if subzone ≠ "" then addSubzones z ip (strings.Split subzone ',') a.2 else (true, a.2)
    if !b.1 then ((some (.Errorf "Internal error"), newToken), (deleteHost env h b.2).2) else
    ((none, h.Token), b.2)
  else
    let u : Bool × Host × World :=
      if h.Subzones ≠ subzone then
        let w1 :=
          if h.Subzones ≠ "" then deleteSubzones z (strings.Split h.Subzones ',') g.2 else g.2
        let b :=
          if subzone ≠ "" then addSubzones z ip (strings.Split subzone ',') w1 else (true, w1)
        if !b.1 then (false, h, (deleteHost env h b.2).2)
        else (true, { h with Subzones := subzone }, b.2)
      else (true, h, g.2)
    if !u.1 then ((some (.Errorf "Internal error"), newToken), u.2.2) else
    let h := u.2.1
    let w2 := if h.IP ≠ ip then (powerdns.ChangeRecord z "A" 60 [ip] u.2.2).2 else u.2.2
    let h := { h with IP := ip }
    ((none, h.Token), (orm.Save env h w2).2.2)

/-- Embedding of `DeleteDns`. -/
def DeleteDns (env : Env) (token : String) (w : World) : Option Failure × World :=
  let q := orm.FindOneByQuery "Token" token w
  match q.1 with
  | none => (some (.Errorf "Unknown token"), q.2)
  | some h => deleteHost env h q.2

/-- Embedding of `UpdateDns`. -/
def UpdateDns (env : Env) (token ip : String) (w : World) : Option Failure × World :=
  let q := orm.FindOneByQuery "Token" token w
  match q.1 with
  | none => (some (.Errorf "Unknown token"), q.2)
  | some h =>
    let w1 := (powerdns.GetZone env.conf.Zone q.2).2
    let z := h.Hostname ++ "." ++ env.conf.Zone
    let w3 :=
      if h.IP ≠ ip then
        let w2 := (powerdns.ChangeRecord z "A" 60 [ip] w1).2
        if h.Subzones ≠ "" then changeSubzones z ip (strings.Split h.Subzones ',') w2 else w2
      else w1
    let h := { h with IP := ip }
    (none, (orm.Save env h w3).2.2)

/-- The loop of `removeExpired` over the rows read. -/
def sweep (env : Env) (tCheck : Int) : List Host → World → World
  | [], w => w
  | h :: hosts, w =>
    if h.UpdatedAt < tCheck then sweep env tCheck hosts (deleteHost env h w).2
    else sweep env tCheck hosts w

/-- Embedding of `removeExpired`. -/
def removeExpired (env : Env) (w : World) : World :=
  let q := orm.FindAll w
  match q.1 with
  | none => q.2
  | some hosts =>
    let tCheck := env.AddDate env.now 0 0 (0 - env.conf.ExpirationDays)
    sweep env tCheck hosts q.2

/-- Modelled from the spec: the validator `isValidHostname` of package
`models` (its file is not among the sources), `validate_main(name)`: true iff
the name matches `^[a-z0-9]{4,32}$`; the name is handed back as validated. -/
def specIsValidHostname (host : String) : String × Bool :=
  (host, haproxy.isValidHostname host)

/-- A concrete environment: zone `dyn.io`, one deny-listed name, a retention
window of 30 days, time counted in days, tokens `tok0`, `tok1`, ... -/
def sampleEnv : Env where
  conf := { Zone := "dyn.io", Blacklist := ["admin"], ExpirationDays := 30 }
  isValidHostname := specIsValidHostname
  tokenGenerator := fun n => "tok" ++ toString n
  now := 100
  AddDate := fun t _ _ d => t + d

/-- The subzones named by a comma-joined string: none for the empty string. -/
def subzoneList (subzone : String) : List String :=
  if subzone = "" then [] else strings.Split subzone ','

/-- Whether a call changes the store or the remote zone when it succeeds. -/
def Call.mutates : Call → Bool
  | .Create _ => true
  | .Save _ => true
  | .Delete _ => true
  | .AddRecord _ _ _ _ => true
  | .ChangeRecord _ _ _ _ => true
  | .DeleteRecord _ _ => true
  | _ => false

/-- Whether a call adds or deletes a remote record. -/
def Call.addsOrDeletes : Call → Bool
  | .AddRecord _ _ _ _ => true
  | .DeleteRecord _ _ => true
  | _ => false

/-- The remote record sets of the given name and type A. -/
def lookupA (name : String) (rs : List RRset) : List RRset :=
  rs.filter (fun r => r.name == name && r.rtype == "A")

/-- The calls of the delete-by-host path for one Host, in order. -/
def deleteHostCalls (env : Env) (h : Host) : List Call :=
  [Call.GetZone env.conf.Zone] ++
    (subzoneList h.Subzones).map
      (fun s => Call.DeleteRecord (s ++ "." ++ (h.Hostname ++ "." ++ env.conf.Zone)) "A") ++
    [Call.DeleteRecord (h.Hostname ++ "." ++ env.conf.Zone) "A", Call.Delete h]

/-- The names of the remote records derived from a Host. -/
def hostNames (env : Env) (h : Host) : List String :=
  (h.Hostname ++ "." ++ env.conf.Zone) ::
    (subzoneList h.Subzones).map (fun s => s ++ "." ++ (h.Hostname ++ "." ++ env.conf.Zone))

/-- Every outcome still in the script is a success. -/
def AllSucceed (w : World) : Prop := ∀ b ∈ w.outcomes, b = true

/-- No record set of the given name and type A is present. -/
def Absent (name : String) (rs : List RRset) : Prop :=
  ∀ r ∈ rs, ¬ (r.name = name ∧ r.rtype = "A")

/-- The row that a registration stores. -/
def newHost (env : Env) (m subzone ip : String) (w : World) : Host :=
  ⟨w.nextID, m, subzone, ip, env.tokenGenerator w.seed, env.now⟩

/-- The world right after the create of a registration succeeded: the lookup,
the zone lookup and the create are logged, the row is stored. -/
def created (env : Env) (m subzone ip : String) (w : World) (os : List Bool) : World where
  rows := w.rows ++ [newHost env m subzone ip w]
  nextID := w.nextID + 1
  records := w.records
  seed := w.seed + 1
  trace :=
    w.trace ++
      [Call.FindOneByQuery "Hostname" m, .GetZone env.conf.Zone,
        .Create ⟨0, m, subzone, ip, env.tokenGenerator w.seed, 0⟩]
  outcomes := os

/-- The world in which `deleteHost` issues its main-record delete. -/
def beforeMainDelete (env : Env) (h : Host) (w : World) : World :=
  deleteSubzones (h.Hostname ++ "." ++ env.conf.Zone) (subzoneList h.Subzones)
    (powerdns.GetZone env.conf.Zone w).2

/-- Delete-by-host applied to each Host of a list in turn. -/
def deleteAll (env : Env) (hs : List Host) (w : World) : World :=
  hs.foldl (fun v h => (deleteHost env h v).2) w

/-- A store with one Host `home` (subzone `cam`) and its two remote records. -/
def sampleWorld : World where
  rows := [⟨1, "home", "cam1", "1.1.1.1", "tok0", 90⟩]
  nextID := 2
  records := [⟨"home.dyn.io", "A", 60, ["1.1.1.1"]⟩, ⟨"cam1.home.dyn.io", "A", 60, ["1.1.1.1"]⟩]
  seed := 1
  trace := []
  outcomes := []

/-- The sample store when the zone provider cannot be reached: the lookup in
the store succeeds, the zone lookup fails. -/
def zoneDownWorld : World := { sampleWorld with outcomes := [true, false] }

/-- A store with one Host `home` with the subzones `aaaa,bbbb`. -/
def twoSubsWorld : World where
  rows := [⟨1, "home", "aaaa,bbbb", "1.1.1.1", "tok0", 90⟩]
  nextID := 2
  records :=
    [⟨"home.dyn.io", "A", 60, ["1.1.1.1"]⟩, ⟨"aaaa.home.dyn.io", "A", 60, ["1.1.1.1"]⟩,
      ⟨"bbbb.home.dyn.io", "A", 60, ["1.1.1.1"]⟩]
  seed := 1
  trace := []
  outcomes := []

/-- The sample store during an update in which the second remote add fails:
lookup, zone lookup, one delete and one add succeed, the next add fails, all
calls after it succeed. -/
def secondAddFailsWorld : World :=
  { sampleWorld with outcomes := [true, true, true, true, false, true, true, true, true] }

/-- A store of three Hosts, of which `oldy` and `gone` were last updated
before day 70; during the sweep the zone lookup and a remote delete fail for
`oldy`. -/
def sweepWorld : World where
  rows :=
    [⟨1, "home", "cam1", "1.1.1.1", "tok0", 70⟩, ⟨2, "oldy", "web1", "2.2.2.2", "tok1", 10⟩,
      ⟨3, "gone", "", "3.3.3.3", "tok2", 69⟩]
  nextID := 4
  records :=
    [⟨"home.dyn.io", "A", 60, ["1.1.1.1"]⟩, ⟨"cam1.home.dyn.io", "A", 60, ["1.1.1.1"]⟩,
      ⟨"oldy.dyn.io", "A", 60, ["2.2.2.2"]⟩, ⟨"web1.oldy.dyn.io", "A", 60, ["2.2.2.2"]⟩,
      ⟨"gone.dyn.io", "A", 60, ["3.3.3.3"]⟩]
  seed := 3
  trace := []
  outcomes := [true, false, false, true, false]


end models


/-! ## Correctness of the validators -/

namespace regexp

theorem mem_iterRange_cls (p : Char → Bool) (hi : Nat) :
    ∀ (lo i : Nat) (cs : List Char) (t : Pos),
      t ∈ iterRange (Re.cls p).run lo hi (i, cs) ↔
        ∃ k, lo ≤ k ∧ k ≤ hi ∧ k ≤ cs.length ∧ (∀ c ∈ cs.take k, p c = true) ∧
          t = (i + k, cs.drop k) := by
  induction hi with
  | zero =>
    intro lo i cs t
    simp only [iterRange]
    constructor
    · intro h
      split at h
      · next h0 =>
        simp only [List.mem_singleton] at h
        exact ⟨0, by omega, le_refl 0, Nat.zero_le _, by simp, by simpa using h⟩
      · simp at h
    · rintro ⟨k, h1, h2, -, -, h5⟩
      have hk : k = 0 := by omega
      have hl : lo = 0 := by omega
      subst hk; subst hl
      simpa using h5
  | succ hi ih =>
    intro lo i cs t
    simp only [iterRange, List.mem_append, List.mem_flatMap]
    constructor
    · rintro (h | ⟨u, hu, ht⟩)
      · split at h
        · simp only [List.mem_singleton] at h
          exact ⟨0, by omega, Nat.zero_le _, Nat.zero_le _, by simp, by simpa using h⟩
        · simp at h
      · cases cs with
        | nil => simp [Re.run] at hu
        | cons c cs =>
          simp only [Re.run] at hu
          split at hu
          · next hpc =>
            simp only [List.mem_singleton] at hu
            subst hu
            obtain ⟨k, h1, h2, h3, h4, h5⟩ := (ih _ _ _ _).1 ht
            refine ⟨k + 1, by omega, by omega, by simpa using h3, ?_, ?_⟩
            · intro d hd
              simp only [List.take_succ_cons, List.mem_cons] at hd
              rcases hd with rfl | hd
              · exact hpc
              · exact h4 d hd
            · rw [h5]; simp [Nat.add_assoc, Nat.add_comm 1 k]
          · simp at hu
    · rintro ⟨k, h1, h2, h3, h4, h5⟩
      cases k with
      | zero =>
        left
        have hl : lo = 0 := by omega
        subst hl
        simpa using h5
      | succ k =>
        right
        cases cs with
        | nil => simp at h3
        | cons c cs =>
          have hpc : p c = true := h4 c (by simp)
          refine ⟨(i + 1, cs), by simp [Re.run, hpc], ?_⟩
          refine (ih _ _ _ _).2 ⟨k, by omega, by omega, by simpa using h3, ?_, ?_⟩
          · intro d hd
            exact h4 d (by simp [hd])
          · rw [h5]; simp [Nat.add_assoc, Nat.add_comm 1 k]

theorem run_anchored_ne_nil (p : Char → Bool) (lo hi i : Nat) (cs : List Char) :
    (Re.seq .bot (.seq (.rep (.cls p) lo hi) .eot)).run (i, cs) ≠ [] ↔
      i = 0 ∧ lo ≤ cs.length ∧ cs.length ≤ hi ∧ ∀ c ∈ cs, p c = true := by
  rw [← List.length_pos, List.length_pos_iff_exists_mem]
  simp only [Re.run, List.mem_flatMap]
  constructor
  · rintro ⟨t, u, hu, v, hv, ht⟩
    split at hu
    · next hi0 =>
      simp only [List.mem_singleton] at hu
      subst hu
      obtain ⟨k, h1, h2, h3, h4, h5⟩ := (mem_iterRange_cls p hi lo i cs v).1 hv
      subst h5
      split at ht
      · next he =>
        have hd : cs.drop k = [] := by simpa using he
        have hk : cs.length ≤ k := List.drop_eq_nil_iff.1 hd
        have hkl : k = cs.length := by omega
        subst hkl
        refine ⟨hi0, h1, h2, ?_⟩
        simpa using h4
      · simp at ht
    · simp at hu
  · rintro ⟨h0, h1, h2, h3⟩
    subst h0
    refine ⟨(cs.length, []), (0, cs), by simp, (cs.length, []), ?_, by simp⟩
    refine (mem_iterRange_cls p hi lo 0 cs _).2 ⟨cs.length, h1, h2, le_refl _, ?_, by simp⟩
    simpa using h3

theorem starts_fst_ge : ∀ (cs : List Char) (n : Nat) (s : Pos), s ∈ starts n cs → n ≤ s.1
  | [], n, s, h => by
    simp only [starts, List.mem_singleton] at h
    subst h; exact le_refl _
  | c :: cs, n, s, h => by
    simp only [starts, List.mem_cons] at h
    rcases h with rfl | h
    · exact le_refl _
    · have := starts_fst_ge cs (n + 1) s h
      omega

theorem starts_zero_fst (cs : List Char) (s : Pos) (h : s ∈ starts 0 cs) (h0 : s.1 = 0) :
    s = (0, cs) := by
  cases cs with
  | nil => simpa [starts] using h
  | cons c cs =>
    simp only [starts, List.mem_cons] at h
    rcases h with rfl | h
    · rfl
    · have := starts_fst_ge cs 1 s h
      omega

theorem head_mem_starts (cs : List Char) (n : Nat) : (n, cs) ∈ starts n cs := by
  cases cs <;> simp [starts]

theorem match_anchored (p : Char → Bool) (lo hi : Nat) (cs : List Char) :
    Match (.seq .bot (.seq (.rep (.cls p) lo hi) .eot)) cs = true ↔
      lo ≤ cs.length ∧ cs.length ≤ hi ∧ ∀ c ∈ cs, p c = true := by
  unfold Match
  rw [List.any_eq_true]
  constructor
  · rintro ⟨s, hs, hr⟩
    have hne : (Re.seq .bot (.seq (.rep (.cls p) lo hi) .eot)).run (s.1, s.2) ≠ [] := by
      intro h
      rw [show (s.1, s.2) = s from rfl] at h
      simp [h] at hr
    have hrun := (run_anchored_ne_nil p lo hi s.1 s.2).1 hne
    have hs0 := starts_zero_fst cs s hs hrun.1
    have hcs : s.2 = cs := by rw [hs0]
    rw [hcs] at hrun
    exact hrun.2
  · intro h
    refine ⟨(0, cs), head_mem_starts cs 0, ?_⟩
    have := (run_anchored_ne_nil p lo hi 0 cs).2 ⟨rfl, h⟩
    cases hr : (Re.seq .bot (.seq (.rep (.cls p) lo hi) .eot)).run (0, cs) with
    | nil => exact absurd hr this
    | cons a l => rfl

theorem lowerAlnum_iff (c : Char) :
    lowerAlnum c = true ↔ (('a' ≤ c ∧ c ≤ 'z') ∨ ('0' ≤ c ∧ c ≤ '9')) := by
  simp [lowerAlnum]

end regexp

/-- C10: the main-zone validator accepts exactly the strings of 4 to 32
characters that are all in a-z or 0-9, and the subzone validator exactly those
of 2 to 32 such characters. -/
theorem validators_spec (s : String) :
    (haproxy.isValidHostname s = true ↔
      ((∀ c ∈ s.toList, ('a' ≤ c ∧ c ≤ 'z') ∨ ('0' ≤ c ∧ c ≤ '9')) ∧
        4 ≤ s.length ∧ s.length ≤ 32)) ∧
    (haproxy.isValidSubHostname s = true ↔
      ((∀ c ∈ s.toList, ('a' ≤ c ∧ c ≤ 'z') ∨ ('0' ≤ c ∧ c ≤ '9')) ∧
        2 ≤ s.length ∧ s.length ≤ 32)) := by
  have hlen : s.length = s.toList.length := rfl
  constructor
  · unfold haproxy.isValidHostname
    rw [regexp.match_anchored, hlen]
    simp only [regexp.lowerAlnum_iff]
    tauto
  · unfold haproxy.isValidSubHostname
    rw [regexp.match_anchored, hlen]
    simp only [regexp.lowerAlnum_iff]
    tauto

/-! ## The collaborators, one call at a time -/

namespace models

theorem call_fst (w : World) (c : Call) : (w.call c).1 = w.outcomes.headD true := by
  unfold World.call
  cases h : w.outcomes <;> rfl

theorem call_snd (w : World) (c : Call) :
    (w.call c).2 = { w with trace := w.trace ++ [c], outcomes := w.outcomes.tail } := by
  unfold World.call
  cases h : w.outcomes <;> simp [h]

theorem allSucceed_headD {w : World} (h : AllSucceed w) : w.outcomes.headD true = true := by
  unfold AllSucceed at h
  cases ho : w.outcomes with
  | nil => rfl
  | cons b bs => exact h b (by simp [ho])

theorem allSucceed_tail {w : World} (h : AllSucceed w) :
    ∀ b ∈ w.outcomes.tail, b = true :=
  fun b hb => h b (List.mem_of_mem_tail hb)

theorem lookupA_eq_nil {name : String} {rs : List RRset} :
    lookupA name rs = [] ↔ Absent name rs := by
  unfold lookupA Absent
  simp [List.filter_eq_nil_iff]

theorem mem_without {name rtype : String} {rs : List RRset} {r : RRset} :
    r ∈ powerdns.without name rtype rs ↔ r ∈ rs ∧ ¬ (r.name = name ∧ r.rtype = rtype) := by
  unfold powerdns.without
  simp only [List.mem_filter, Bool.not_eq_true', Bool.and_eq_false_imp, beq_iff_eq,
    beq_eq_false_iff_ne, ne_eq, not_and]

namespace powerdns

theorem DeleteRecord_snd (name rtype : String) (w : World) :
    (DeleteRecord name rtype w).2 =
      { w with
        trace := w.trace ++ [.DeleteRecord name rtype]
        outcomes := w.outcomes.tail
        records := if w.outcomes.headD true then without name rtype w.records else w.records } := by
  unfold DeleteRecord
  simp only [call_fst, call_snd]
  split <;> simp_all

theorem AddRecord_fst (name rtype : String) (ttl : Nat) (content : List String) (w : World) :
    (AddRecord name rtype ttl content w).1 = w.outcomes.headD true := by
  unfold AddRecord
  simp only [call_fst, call_snd]
  split <;> simp_all

theorem AddRecord_snd (name rtype : String) (ttl : Nat) (content : List String) (w : World) :
    (AddRecord name rtype ttl content w).2 =
      { w with
        trace := w.trace ++ [.AddRecord name rtype ttl content]
        outcomes := w.outcomes.tail
        records :=
          if w.outcomes.headD true then
            without name rtype w.records ++ [⟨name, rtype, ttl, content⟩]
          else w.records } := by
  unfold AddRecord
  simp only [call_fst, call_snd]
  split <;> simp_all

theorem ChangeRecord_snd (name rtype : String) (ttl : Nat) (content : List String)
    (w : World) :
    (ChangeRecord name rtype ttl content w).2 =
      { w with
        trace := w.trace ++ [.ChangeRecord name rtype ttl content]
        outcomes := w.outcomes.tail
        records :=
          if w.outcomes.headD true then
            without name rtype w.records ++ [⟨name, rtype, ttl, content⟩]
          else w.records } := by
  unfold ChangeRecord
  simp only [call_fst, call_snd]
  split <;> simp_all

theorem GetZone_fst (zone : String) (w : World) :
    (GetZone zone w).1 = w.outcomes.headD true := call_fst w _

theorem GetZone_snd (zone : String) (w : World) :
    (GetZone zone w).2 =
      { w with trace := w.trace ++ [.GetZone zone], outcomes := w.outcomes.tail } :=
  call_snd w _

end powerdns

namespace orm

theorem Delete_fst (h : Host) (w : World) : (Delete h w).1 = w.outcomes.headD true := by
  unfold Delete
  simp only [call_fst, call_snd]
  split <;> simp_all

theorem Delete_snd (h : Host) (w : World) :
    (Delete h w).2 =
      { w with
        trace := w.trace ++ [.Delete h]
        outcomes := w.outcomes.tail
        rows := if w.outcomes.headD true then w.rows.filter (fun x => x.ID != h.ID)
          else w.rows } := by
  unfold Delete
  simp only [call_fst, call_snd]
  split <;> simp_all

theorem FindOneByQuery_fst (field value : String) (w : World) :
    (FindOneByQuery field value w).1 =
      if w.outcomes.headD true then w.rows.find? (fun h => h.field field == value)
      else none := by
  unfold FindOneByQuery
  simp only [call_fst, call_snd]
  split <;> rfl

theorem FindOneByQuery_snd (field value : String) (w : World) :
    (FindOneByQuery field value w).2 =
      { w with
        trace := w.trace ++ [.FindOneByQuery field value]
        outcomes := w.outcomes.tail } := by
  unfold FindOneByQuery
  simp only [call_fst, call_snd]
  split <;> rfl

theorem FindAll_fst (w : World) :
    (FindAll w).1 = if w.outcomes.headD true then some w.rows else none := by
  unfold FindAll
  simp only [call_fst, call_snd]
  split <;> rfl

theorem FindAll_snd (w : World) :
    (FindAll w).2 = { w with trace := w.trace ++ [.FindAll], outcomes := w.outcomes.tail } := by
  unfold FindAll
  simp only [call_fst, call_snd]
  split <;> rfl

end orm

end models

/-! ## The loops and the delete-by-host path -/

namespace models

theorem allSucceed_of_tail {w v : World} (h : AllSucceed w) (hv : v.outcomes = w.outcomes.tail) :
    AllSucceed v := by
  unfold AllSucceed
  rw [hv]
  exact allSucceed_tail h

theorem absent_of_subset {name : String} {rs rs2 : List RRset} (h : Absent name rs)
    (hs : ∀ r ∈ rs2, r ∈ rs) : Absent name rs2 :=
  fun r hr => h r (hs r hr)

theorem absent_without (name : String) (rs : List RRset) :
    Absent name (powerdns.without name "A" rs) := by
  intro r hr
  exact (mem_without.1 hr).2

theorem deleteSubzones_eq (z subzone : String) (w : World) :
    (if subzone ≠ "" then deleteSubzones z (strings.Split subzone ',') w else w) =
      deleteSubzones z (subzoneList subzone) w := by
  unfold subzoneList
  by_cases h : subzone = "" <;> simp [h, deleteSubzones]

theorem addSubzones_eq (z ip subzone : String) (w : World) :
    (if subzone ≠ "" then addSubzones z ip (strings.Split subzone ',') w else (true, w)) =
      addSubzones z ip (subzoneList subzone) w := by
  unfold subzoneList
  by_cases h : subzone = "" <;> simp [h, addSubzones]

theorem changeSubzones_eq (z ip subzone : String) (w : World) :
    (if subzone ≠ "" then changeSubzones z ip (strings.Split subzone ',') w else w) =
      changeSubzones z ip (subzoneList subzone) w := by
  unfold subzoneList
  by_cases h : subzone = "" <;> simp [h, changeSubzones]

theorem deleteSubzones_frame (z : String) : ∀ (subs : List String) (w : World),
    (deleteSubzones z subs w).trace =
        w.trace ++ subs.map (fun s => Call.DeleteRecord (s ++ "." ++ z) "A") ∧
      (deleteSubzones z subs w).rows = w.rows ∧
      (deleteSubzones z subs w).nextID = w.nextID ∧
      (deleteSubzones z subs w).seed = w.seed ∧
      (deleteSubzones z subs w).outcomes = w.outcomes.drop subs.length
  | [], w => by simp [deleteSubzones]
  | s :: subs, w => by
    have ih := deleteSubzones_frame z subs (powerdns.DeleteRecord (s ++ "." ++ z) "A" w).2
    simp only [deleteSubzones]
    rw [ih.1, ih.2.1, ih.2.2.1, ih.2.2.2.1, ih.2.2.2.2, powerdns.DeleteRecord_snd]
    simp [List.drop_succ_cons, List.tail_drop]

theorem deleteSubzones_keeps (z : String) : ∀ (subs : List String) (w : World) (r : RRset),
    r ∈ w.records → (∀ s ∈ subs, r.name ≠ s ++ "." ++ z) →
      r ∈ (deleteSubzones z subs w).records
  | [], w, r, hr, _ => by simpa [deleteSubzones] using hr
  | s :: subs, w, r, hr, hn => by
    simp only [deleteSubzones]
    apply deleteSubzones_keeps z subs _ r
    · rw [powerdns.DeleteRecord_snd]
      simp only
      split
      · exact mem_without.2 ⟨hr, fun hh => hn s (by simp) hh.1⟩
      · exact hr
    · intro t ht
      exact hn t (by simp [ht])

theorem deleteSubzones_sub (z : String) : ∀ (subs : List String) (w : World) (r : RRset),
    r ∈ (deleteSubzones z subs w).records → r ∈ w.records
  | [], w, r, hr => by simpa [deleteSubzones] using hr
  | s :: subs, w, r, hr => by
    simp only [deleteSubzones] at hr
    have h1 := deleteSubzones_sub z subs _ r hr
    rw [powerdns.DeleteRecord_snd] at h1
    simp only at h1
    split at h1
    · exact (mem_without.1 h1).1
    · exact h1

theorem deleteSubzones_removed (z : String) : ∀ (subs : List String) (w : World),
    AllSucceed w → ∀ s ∈ subs, Absent (s ++ "." ++ z) (deleteSubzones z subs w).records
  | [], w, _, s, hs => by simp at hs
  | t :: subs, w, hw, s, hs => by
    simp only [deleteSubzones]
    have hw1 : AllSucceed (powerdns.DeleteRecord (t ++ "." ++ z) "A" w).2 :=
      allSucceed_of_tail hw (by rw [powerdns.DeleteRecord_snd])
    rcases List.mem_cons.1 hs with rfl | hs1
    · apply absent_of_subset _ (deleteSubzones_sub z subs _)
      rw [powerdns.DeleteRecord_snd]
      simp only [(allSucceed_headD hw), if_true]
      exact absent_without _ _
    · exact deleteSubzones_removed z subs _ hw1 s hs1

theorem deleteSubzones_allSucceed (z : String) (subs : List String) (w : World)
    (hw : AllSucceed w) : AllSucceed (deleteSubzones z subs w) := by
  unfold AllSucceed
  rw [(deleteSubzones_frame z subs w).2.2.2.2]
  intro b hb
  exact hw b (List.mem_of_mem_drop hb)

theorem deleteHost_eq (env : Env) (h : Host) (w : World) :
    deleteHost env h w =
      (if (orm.Delete h
            (powerdns.DeleteRecord (h.Hostname ++ "." ++ env.conf.Zone) "A"
              (beforeMainDelete env h w)).2).1
        then none else some Failure.store,
        (orm.Delete h
          (powerdns.DeleteRecord (h.Hostname ++ "." ++ env.conf.Zone) "A"
            (beforeMainDelete env h w)).2).2) := by
  unfold deleteHost beforeMainDelete
  simp only [deleteSubzones_eq]

theorem deleteHost_trace (env : Env) (h : Host) (w : World) :
    (deleteHost env h w).2.trace = w.trace ++ deleteHostCalls env h := by
  rw [deleteHost_eq, orm.Delete_snd, powerdns.DeleteRecord_snd]
  simp only [beforeMainDelete]
  rw [(deleteSubzones_frame _ _ _).1, powerdns.GetZone_snd]
  simp [deleteHostCalls]

theorem deleteHost_rows_keep (env : Env) (h : Host) (w : World) (x : Host)
    (hx : x ∈ w.rows) (hid : x.ID ≠ h.ID) : x ∈ (deleteHost env h w).2.rows := by
  rw [deleteHost_eq, orm.Delete_snd, powerdns.DeleteRecord_snd]
  simp only [beforeMainDelete]
  rw [(deleteSubzones_frame _ _ _).2.1, powerdns.GetZone_snd]
  simp only
  split
  · simp [hx, hid]
  · exact hx

theorem deleteHost_rows_sub (env : Env) (h : Host) (w : World) (x : Host)
    (hx : x ∈ (deleteHost env h w).2.rows) : x ∈ w.rows := by
  rw [deleteHost_eq, orm.Delete_snd, powerdns.DeleteRecord_snd] at hx
  simp only [beforeMainDelete] at hx
  rw [(deleteSubzones_frame _ _ _).2.1, powerdns.GetZone_snd] at hx
  simp only at hx
  split at hx
  · exact (List.mem_filter.1 hx).1
  · exact hx

theorem deleteHost_removed_row (env : Env) (h : Host) (w : World)
    (hok : (deleteHost env h w).1 = none) : ∀ x ∈ (deleteHost env h w).2.rows, x.ID ≠ h.ID := by
  rw [deleteHost_eq] at hok ⊢
  simp only [orm.Delete_fst, orm.Delete_snd] at hok ⊢
  split at hok
  · next hh =>
    intro x hx
    simp only [hh, if_true] at hx
    simpa using (List.mem_filter.1 hx).2
  · simp at hok

theorem deleteHost_records_keep (env : Env) (h : Host) (w : World) (r : RRset)
    (hr : r ∈ w.records) (hn : r.name ∉ hostNames env h) :
    r ∈ (deleteHost env h w).2.records := by
  rw [deleteHost_eq, orm.Delete_snd, powerdns.DeleteRecord_snd]
  simp only [hostNames, List.mem_cons, List.mem_map, not_or, not_exists, not_and] at hn
  have h1 : r ∈ (beforeMainDelete env h w).records := by
    apply deleteSubzones_keeps _ _ _ r
    · rw [powerdns.GetZone_snd]; exact hr
    · intro s hs heq
      exact hn.2 s hs heq.symm
  simp only
  split
  · exact mem_without.2 ⟨h1, fun hh => hn.1 hh.1⟩
  · exact h1

theorem deleteHost_records_sub (env : Env) (h : Host) (w : World) (r : RRset)
    (hr : r ∈ (deleteHost env h w).2.records) : r ∈ w.records := by
  rw [deleteHost_eq, orm.Delete_snd, powerdns.DeleteRecord_snd] at hr
  simp only at hr
  have h1 : r ∈ (beforeMainDelete env h w).records := by
    split at hr
    · exact (mem_without.1 hr).1
    · exact hr
  have h2 := deleteSubzones_sub _ _ _ r h1
  rw [powerdns.GetZone_snd] at h2
  exact h2

theorem deleteHost_allSucceed (env : Env) (h : Host) (w : World) (hw : AllSucceed w) :
    (deleteHost env h w).1 = none ∧
      (∀ x ∈ (deleteHost env h w).2.rows, x.ID ≠ h.ID) ∧
      (∀ n ∈ hostNames env h, Absent n (deleteHost env h w).2.records) := by
  have hg : AllSucceed (powerdns.GetZone env.conf.Zone w).2 :=
    allSucceed_of_tail hw (by rw [powerdns.GetZone_snd])
  have hb : AllSucceed (beforeMainDelete env h w) := deleteSubzones_allSucceed _ _ _ hg
  have hd : AllSucceed (powerdns.DeleteRecord (h.Hostname ++ "." ++ env.conf.Zone) "A"
      (beforeMainDelete env h w)).2 :=
    allSucceed_of_tail hb (by rw [powerdns.DeleteRecord_snd])
  have hnone : (deleteHost env h w).1 = none := by
    rw [deleteHost_eq]
    simp only [orm.Delete_fst, (allSucceed_headD hd), if_true]
  refine ⟨hnone, deleteHost_removed_row env h w hnone, ?_⟩
  intro n hn
  rw [deleteHost_eq, orm.Delete_snd, powerdns.DeleteRecord_snd]
  simp only [(allSucceed_headD hb), if_true]
  simp only [hostNames, List.mem_cons, List.mem_map] at hn
  rcases hn with rfl | ⟨s, hs, rfl⟩
  · exact absent_without _ _
  · apply absent_of_subset (deleteSubzones_removed _ _ _ hg s hs)
    intro r hr
    exact (mem_without.1 hr).1

end models

/-! ## Explicit deletion and the expiry sweep -/

namespace models

theorem field_Token (h : Host) : h.field "Token" = h.Token := rfl

theorem field_Hostname (h : Host) : h.field "Hostname" = h.Hostname := rfl

theorem sweep_eq (env : Env) (tCheck : Int) : ∀ (hosts : List Host) (w : World),
    sweep env tCheck hosts w =
      deleteAll env (hosts.filter (fun h => decide (h.UpdatedAt < tCheck))) w
  | [], w => rfl
  | h :: hosts, w => by
    unfold sweep
    by_cases hlt : h.UpdatedAt < tCheck
    · simp only [hlt, if_true, decide_True, List.filter_cons_of_pos]
      rw [sweep_eq env tCheck hosts]
      rfl
    · simp only [hlt, if_false, decide_False, List.filter_cons_of_neg, Bool.false_eq_true,
        not_false_eq_true]
      exact sweep_eq env tCheck hosts w

theorem deleteAll_trace (env : Env) : ∀ (hs : List Host) (w : World),
    (deleteAll env hs w).trace = w.trace ++ (hs.map (deleteHostCalls env)).flatten
  | [], w => by simp [deleteAll]
  | h :: hs, w => by
    have ih := deleteAll_trace env hs (deleteHost env h w).2
    simp only [deleteAll, List.foldl_cons] at ih ⊢
    rw [ih, deleteHost_trace]
    simp

theorem deleteAll_rows_keep (env : Env) : ∀ (hs : List Host) (w : World) (x : Host),
    x ∈ w.rows → (∀ e ∈ hs, e.ID ≠ x.ID) → x ∈ (deleteAll env hs w).rows
  | [], w, x, hx, _ => by simpa [deleteAll] using hx
  | h :: hs, w, x, hx, hid => by
    have ih := deleteAll_rows_keep env hs (deleteHost env h w).2 x
      (deleteHost_rows_keep env h w x hx (fun hh => hid h (by simp) hh.symm))
      (fun e he => hid e (by simp [he]))
    simpa [deleteAll] using ih

theorem deleteAll_records_keep (env : Env) : ∀ (hs : List Host) (w : World) (r : RRset),
    r ∈ w.records → (∀ e ∈ hs, r.name ∉ hostNames env e) → r ∈ (deleteAll env hs w).records
  | [], w, r, hr, _ => by simpa [deleteAll] using hr
  | h :: hs, w, r, hr, hn => by
    have ih := deleteAll_records_keep env hs (deleteHost env h w).2 r
      (deleteHost_records_keep env h w r hr (hn h (by simp)))
      (fun e he => hn e (by simp [he]))
    simpa [deleteAll] using ih

end models

/-- C8: `DeleteDns` with a token that the store resolves to a Host issues,
whichever calls fail, the delete of each stored subzone record in order, then
the delete of the main record, then the removal of the row; when the removal
succeeds (the result is no error) the row is gone and, tokens being unique, a
second `DeleteDns` with the token answers "Unknown token". With a token that
resolves to no Host it answers "Unknown token" and changes nothing. -/
theorem deleteDns_spec (env : models.Env) (token : String) (w : models.World) :
    (∀ h, (models.orm.FindOneByQuery "Token" token w).1 = some h →
      (models.DeleteDns env token w).2.trace =
          w.trace ++ [models.Call.FindOneByQuery "Token" token] ++
            models.deleteHostCalls env h ∧
        ((models.DeleteDns env token w).1 = none →
          (∀ x ∈ (models.DeleteDns env token w).2.rows, x.ID ≠ h.ID) ∧
          ((∀ x ∈ w.rows, x.Token = token → x.ID = h.ID) →
            (models.DeleteDns env token (models.DeleteDns env token w).2).1 =
              some (.Errorf "Unknown token")))) ∧
    ((models.orm.FindOneByQuery "Token" token w).1 = none →
      (models.DeleteDns env token w).1 = some (.Errorf "Unknown token") ∧
        (models.DeleteDns env token w).2.rows = w.rows ∧
        (models.DeleteDns env token w).2.records = w.records ∧
        (models.DeleteDns env token w).2.nextID = w.nextID ∧
        (models.DeleteDns env token w).2.trace =
          w.trace ++ [models.Call.FindOneByQuery "Token" token]) := by
  constructor
  · intro h hfind
    have hD : models.DeleteDns env token w =
        models.deleteHost env h (models.orm.FindOneByQuery "Token" token w).2 := by
      unfold models.DeleteDns
      simp only [hfind]
    refine ⟨?_, ?_⟩
    · rw [hD, models.deleteHost_trace, models.orm.FindOneByQuery_snd]
    · intro hok
      have hgone : ∀ x ∈ (models.DeleteDns env token w).2.rows, x.ID ≠ h.ID := by
        rw [hD] at hok ⊢
        exact models.deleteHost_removed_row env h _ hok
      refine ⟨hgone, ?_⟩
      intro huniq
      have hnone : (models.orm.FindOneByQuery "Token" token
          (models.DeleteDns env token w).2).1 = none := by
        rw [models.orm.FindOneByQuery_fst]
        split
        · rw [List.find?_eq_none]
          intro x hx hfx
          have hxw : x ∈ w.rows := by
            rw [hD] at hx
            have := models.deleteHost_rows_sub env h _ x hx
            rw [models.orm.FindOneByQuery_snd] at this
            exact this
          have htok : x.Token = token := by simpa [models.field_Token] using hfx
          exact hgone x hx (huniq x hxw htok)
        · rfl
      generalize (models.DeleteDns env token w).2 = v at hnone
      unfold models.DeleteDns
      simp only [hnone]
  · intro hnone
    unfold models.DeleteDns
    simp only [hnone, models.orm.FindOneByQuery_snd, and_self]

/-- Witness of C8 on the sample store: the token `tok0` resolves to the Host
`home`, every call succeeds, and the second delete answers "Unknown token". -/
theorem deleteDns_spec_witness :
    (models.DeleteDns models.sampleEnv "tok0" models.sampleWorld).2.trace =
        [models.Call.FindOneByQuery "Token" "tok0", .GetZone "dyn.io",
          .DeleteRecord "cam1.home.dyn.io" "A", .DeleteRecord "home.dyn.io" "A",
          .Delete ⟨1, "home", "cam1", "1.1.1.1", "tok0", 90⟩] ∧
      (models.DeleteDns models.sampleEnv "tok0"
        (models.DeleteDns models.sampleEnv "tok0" models.sampleWorld).2).1 =
          some (.Errorf "Unknown token") ∧
      (models.DeleteDns models.sampleEnv "nope" models.sampleWorld).1 =
          some (.Errorf "Unknown token") := by
  have h := deleteDns_spec models.sampleEnv "tok0" models.sampleWorld
  have h2 := deleteDns_spec models.sampleEnv "nope" models.sampleWorld
  have h1 := h.1 ⟨1, "home", "cam1", "1.1.1.1", "tok0", 90⟩ (by decide)
  refine ⟨by rw [h1.1]; decide, ?_, (h2.2 (by decide)).1⟩
  exact (h1.2 (by decide)).2 (by decide)

/-- C9: when the store hands over its rows, `removeExpired` runs the
delete-by-host path on exactly the Hosts with `UpdatedAt` strictly before
`cutoff = AddDate(now, 0, 0, -ExpirationDays)`, in store order, whatever calls
fail on the way; a Host at or after the cutoff keeps its row (primary keys
being distinct), and every record that no expired Host names stays. -/
theorem removeExpired_spec (env : models.Env) (w : models.World) (hosts : List models.Host)
    (hall : (models.orm.FindAll w).1 = some hosts) :
    hosts = w.rows ∧
      models.removeExpired env w =
        models.deleteAll env
          (hosts.filter (fun h =>
            decide (h.UpdatedAt < env.AddDate env.now 0 0 (0 - env.conf.ExpirationDays))))
          (models.orm.FindAll w).2 ∧
      (models.removeExpired env w).trace =
        w.trace ++ [models.Call.FindAll] ++
          ((hosts.filter (fun h =>
            decide (h.UpdatedAt < env.AddDate env.now 0 0 (0 - env.conf.ExpirationDays)))).map
              (models.deleteHostCalls env)).flatten ∧
      (∀ h ∈ hosts, ¬ h.UpdatedAt < env.AddDate env.now 0 0 (0 - env.conf.ExpirationDays) →
        (hosts.map (fun x => x.ID)).Nodup → h ∈ (models.removeExpired env w).rows) ∧
      (∀ r ∈ w.records,
        (∀ e ∈ hosts, e.UpdatedAt < env.AddDate env.now 0 0 (0 - env.conf.ExpirationDays) →
          r.name ∉ models.hostNames env e) →
        r ∈ (models.removeExpired env w).records) := by
  have hrows : hosts = w.rows := by
    rw [models.orm.FindAll_fst] at hall
    split at hall
    · exact (Option.some.inj hall).symm
    · exact absurd hall (by simp)
  have heq : models.removeExpired env w =
      models.deleteAll env
        (hosts.filter (fun h =>
          decide (h.UpdatedAt < env.AddDate env.now 0 0 (0 - env.conf.ExpirationDays))))
        (models.orm.FindAll w).2 := by
    unfold models.removeExpired
    simp only [hall]
    exact models.sweep_eq env _ hosts _
  refine ⟨hrows, heq, ?_, ?_, ?_⟩
  · rw [heq, models.deleteAll_trace, models.orm.FindAll_snd]
  · intro h hh hfresh hkey
    rw [heq]
    apply models.deleteAll_rows_keep
    · rw [models.orm.FindAll_snd, ← hrows]; exact hh
    · intro e he hid
      have hem := (List.mem_filter.1 he).1
      have hexp : e.UpdatedAt < env.AddDate env.now 0 0 (0 - env.conf.ExpirationDays) := by
        simpa using (List.mem_filter.1 he).2
      have : e = h := List.inj_on_of_nodup_map hkey hem hh hid
      subst this
      exact hfresh hexp
  · intro r hr hn
    rw [heq]
    apply models.deleteAll_records_keep
    · rw [models.orm.FindAll_snd]; exact hr
    · intro e he
      exact hn e (List.mem_filter.1 he).1 (by simpa using (List.mem_filter.1 he).2)

/-! ## Registration -/

namespace models

theorem subzones_invalid_iff (subzone : String) (f : String → Bool) :
    (subzone ≠ "" ∧ (!(strings.Split subzone ',').all f) = true) ↔
      ¬ ∀ s ∈ subzoneList subzone, f s = true := by
  unfold subzoneList
  by_cases h : subzone = "" <;> simp [h]

end models

/-- C6 (amended): when the lookup by hostname finds a Host, `RegisterDns` with an
empty token returns an error and an empty token and leaves the store and
the remote zone as they were, issuing no create, save, delete, add or change;
for a valid, not deny-listed mainzone with valid subzones and a successful zone
lookup, the error is "Host already registered". -/
theorem registerDns_existing (env : models.Env) (mainzone subzone ip : String)
    (w : models.World) (h : models.Host)
    (hfind : (models.orm.FindOneByQuery "Hostname" (env.isValidHostname mainzone).1 w).1 =
      some h) :
    (models.RegisterDns env mainzone subzone "" ip w).1.2 = "" ∧
      (models.RegisterDns env mainzone subzone "" ip w).1.1 ≠ none ∧
      (models.RegisterDns env mainzone subzone "" ip w).2.rows = w.rows ∧
      (models.RegisterDns env mainzone subzone "" ip w).2.records = w.records ∧
      (models.RegisterDns env mainzone subzone "" ip w).2.nextID = w.nextID ∧
      (∃ cs, (models.RegisterDns env mainzone subzone "" ip w).2.trace = w.trace ++ cs ∧
        ∀ c ∈ cs, c.mutates = false) ∧
      (mainzone ≠ "" → (env.isValidHostname mainzone).2 = true →
        models.stringInSlice (env.isValidHostname mainzone).1 env.conf.Blacklist = false →
        (∀ s ∈ models.subzoneList subzone, (env.isValidHostname s).2 = true) →
        (models.powerdns.GetZone env.conf.Zone
          (models.orm.FindOneByQuery "Hostname" (env.isValidHostname mainzone).1 w).2).1 = true →
        (models.RegisterDns env mainzone subzone "" ip w).1.1 =
          some (.Errorf "Host already registered")) := by
  unfold models.RegisterDns
  simp only [models.subzones_invalid_iff, hfind, Option.isSome_some, if_true]
  split_ifs <;>
    simp_all [models.powerdns.GetZone_snd, models.orm.FindOneByQuery_snd, models.Call.mutates]


namespace models

theorem orm.Create_fst (env : Env) (h : Host) (w : World) :
    (orm.Create env h w).1 = w.outcomes.headD true := by
  unfold orm.Create
  simp only [call_fst, call_snd]
  split <;> simp_all

theorem orm.Create_snd (env : Env) (h : Host) (w : World) :
    (orm.Create env h w).2 =
      if w.outcomes.headD true then
        ({ h with ID := w.nextID, UpdatedAt := env.now },
          { w with
            trace := w.trace ++ [.Create h]
            outcomes := w.outcomes.tail
            rows := w.rows ++ [{ h with ID := w.nextID, UpdatedAt := env.now }]
            nextID := w.nextID + 1 })
      else (h, { w with trace := w.trace ++ [.Create h], outcomes := w.outcomes.tail }) := by
  unfold orm.Create
  simp only [call_fst, call_snd]
  split <;> simp_all

theorem orm.Save_trace (env : Env) (h : Host) (w : World) :
    (orm.Save env h w).2.2.trace = w.trace ++ [.Save h] := by
  unfold orm.Save
  simp only [call_fst, call_snd]
  split_ifs <;> rfl

theorem addSubzones_frame (z ip : String) : ∀ (subs : List String) (w : World),
    (addSubzones z ip subs w).2.rows = w.rows ∧
      (addSubzones z ip subs w).2.nextID = w.nextID ∧
      (addSubzones z ip subs w).2.seed = w.seed
  | [], w => by simp [addSubzones]
  | s :: subs, w => by
    have ih := addSubzones_frame z ip subs (powerdns.AddRecord (s ++ "." ++ z) "A" 60 [ip] w).2
    simp only [addSubzones]
    split
    · rw [ih.1, ih.2.1, ih.2.2, powerdns.AddRecord_snd]
      simp
    · rw [powerdns.AddRecord_snd]
      simp

theorem addSubzones_ok (z ip : String) : ∀ (subs : List String) (w : World) (rest : List Bool),
    w.outcomes = List.replicate subs.length true ++ rest →
      (addSubzones z ip subs w).1 = true ∧
      (addSubzones z ip subs w).2.outcomes = rest ∧
      (addSubzones z ip subs w).2.trace =
        w.trace ++ subs.map (fun s => Call.AddRecord (s ++ "." ++ z) "A" 60 [ip])
  | [], w, rest, h => by simpa [addSubzones] using h
  | s :: subs, w, rest, h => by
    have h1 : (powerdns.AddRecord (s ++ "." ++ z) "A" 60 [ip] w).1 = true := by
      rw [powerdns.AddRecord_fst, h]; rfl
    have ih := addSubzones_ok z ip subs (powerdns.AddRecord (s ++ "." ++ z) "A" 60 [ip] w).2 rest
      (by rw [powerdns.AddRecord_snd, h]; rfl)
    simp only [addSubzones, h1, if_true]
    rw [ih.1, ih.2.1, ih.2.2, powerdns.AddRecord_snd]
    simp

theorem addSubzones_fail (z ip : String) :
    ∀ (subs : List String) (w : World) (k : Nat) (rest : List Bool),
      k < subs.length → w.outcomes = List.replicate k true ++ false :: rest →
        (addSubzones z ip subs w).1 = false ∧ (addSubzones z ip subs w).2.outcomes = rest
  | [], w, k, rest, hk, _ => by simp at hk
  | s :: subs, w, 0, rest, _, h => by
    have h1 : (powerdns.AddRecord (s ++ "." ++ z) "A" 60 [ip] w).1 = false := by
      rw [powerdns.AddRecord_fst, h]; rfl
    simp only [addSubzones, h1]
    rw [powerdns.AddRecord_snd, h]
    simp
  | s :: subs, w, k + 1, rest, hk, h => by
    have h1 : (powerdns.AddRecord (s ++ "." ++ z) "A" 60 [ip] w).1 = true := by
      rw [powerdns.AddRecord_fst, h]; rfl
    have ih := addSubzones_fail z ip subs (powerdns.AddRecord (s ++ "." ++ z) "A" 60 [ip] w).2 k
      rest (by simpa using hk) (by rw [powerdns.AddRecord_snd, h]; rfl)
    simp only [addSubzones, h1, if_true]
    exact ih

theorem find_hostname_none (rows : List Host) (m : String)
    (h : ∀ r ∈ rows, r.Hostname ≠ m) :
    rows.find? (fun x => x.field "Hostname" == m) = none := by
  rw [List.find?_eq_none]
  intro x hx
  simpa [field_Hostname] using h x hx

theorem lookup_hostname_none (w : World) (m : String) (h : ∀ r ∈ w.rows, r.Hostname ≠ m) :
    (orm.FindOneByQuery "Hostname" m w).1 = none := by
  rw [orm.FindOneByQuery_fst, find_hostname_none w.rows m h]
  simp

end models

namespace models

theorem create_path_eq (env : Env) (mainzone subzone ip : String) (w : World)
    (b0 : Bool) (os : List Bool)
    (hne : mainzone ≠ "")
    (hvalid : (env.isValidHostname mainzone).2 = true)
    (hbl : stringInSlice (env.isValidHostname mainzone).1 env.conf.Blacklist = false)
    (hsubs : ∀ s ∈ subzoneList subzone, (env.isValidHostname s).2 = true)
    (hunreg : ∀ r ∈ w.rows, r.Hostname ≠ (env.isValidHostname mainzone).1)
    (hout : w.outcomes = b0 :: true :: true :: os) :
    RegisterDns env mainzone subzone "" ip w =
      if (powerdns.AddRecord ((env.isValidHostname mainzone).1 ++ "." ++ env.conf.Zone) "A" 60 [ip]
          (created env (env.isValidHostname mainzone).1 subzone ip w os)).1 = false then
        ((some (.Errorf "Internal error"), ""),
          (deleteHost env (newHost env (env.isValidHostname mainzone).1 subzone ip w)
            (powerdns.AddRecord ((env.isValidHostname mainzone).1 ++ "." ++ env.conf.Zone) "A" 60
              [ip] (created env (env.isValidHostname mainzone).1 subzone ip w os)).2).2)
      else if (addSubzones ((env.isValidHostname mainzone).1 ++ "." ++ env.conf.Zone) ip
          (subzoneList subzone)
          (powerdns.AddRecord ((env.isValidHostname mainzone).1 ++ "." ++ env.conf.Zone) "A" 60
            [ip] (created env (env.isValidHostname mainzone).1 subzone ip w os)).2).1 = false then
        ((some (.Errorf "Internal error"), ""),
          (deleteHost env (newHost env (env.isValidHostname mainzone).1 subzone ip w)
            (addSubzones ((env.isValidHostname mainzone).1 ++ "." ++ env.conf.Zone) ip
              (subzoneList subzone)
              (powerdns.AddRecord ((env.isValidHostname mainzone).1 ++ "." ++ env.conf.Zone) "A"
                60 [ip] (created env (env.isValidHostname mainzone).1 subzone ip w os)).2).2).2)
      else
        ((none, env.tokenGenerator w.seed),
          (addSubzones ((env.isValidHostname mainzone).1 ++ "." ++ env.conf.Zone) ip
            (subzoneList subzone)
            (powerdns.AddRecord ((env.isValidHostname mainzone).1 ++ "." ++ env.conf.Zone) "A" 60
              [ip] (created env (env.isValidHostname mainzone).1 subzone ip w os)).2).2) := by
  have hq := lookup_hostname_none w _ hunreg
  have hinv : ¬ ∃ x ∈ subzoneList subzone, (env.isValidHostname x).2 = false := by
    rintro ⟨x, hx, hf⟩
    rw [hsubs x hx] at hf
    exact absurd hf (by simp)
  unfold RegisterDns
  simp only [subzones_invalid_iff, addSubzones_eq, hq, hne, hvalid, hbl]
  simp [orm.FindOneByQuery_snd, powerdns.GetZone_fst, powerdns.GetZone_snd,
    tokenGenerator, orm.Create_fst, orm.Create_snd, hout, Host.zero, hinv, created, newHost]

end models

/-- C5 (amended): for a valid, not deny-listed mainzone without a stored Host
and subzones that each pass the validator `RegisterDns` applies to them (the
main-zone validator `isValidHostname`), when the zone lookup, the store create
and every remote add succeed, `RegisterDns` with an empty token returns no
error and the generated token; the calls issued are the lookup, the zone
lookup, the create, then the add of the main record and one add per subzone
in the order given; and a following lookup by hostname that the store answers
finds the Host with that hostname, subzones, ip and token. -/
theorem registerDns_create (env : models.Env) (mainzone subzone ip : String) (w : models.World)
    (b0 : Bool) (rest : List Bool)
    (hne : mainzone ≠ "")
    (hvalid : (env.isValidHostname mainzone).2 = true)
    (hbl : models.stringInSlice (env.isValidHostname mainzone).1 env.conf.Blacklist = false)
    (hsubs : ∀ s ∈ models.subzoneList subzone, (env.isValidHostname s).2 = true)
    (hunreg : ∀ r ∈ w.rows, r.Hostname ≠ (env.isValidHostname mainzone).1)
    (hout : w.outcomes =
      b0 :: true :: true :: true ::
        (List.replicate (models.subzoneList subzone).length true ++ rest))
    (hnext : rest.headD true = true) :
    (models.RegisterDns env mainzone subzone "" ip w).1 = (none, env.tokenGenerator w.seed) ∧
      (models.RegisterDns env mainzone subzone "" ip w).2.trace =
        w.trace ++
          [models.Call.FindOneByQuery "Hostname" (env.isValidHostname mainzone).1,
            .GetZone env.conf.Zone,
            .Create ⟨0, (env.isValidHostname mainzone).1, subzone, ip,
              env.tokenGenerator w.seed, 0⟩,
            .AddRecord ((env.isValidHostname mainzone).1 ++ "." ++ env.conf.Zone) "A" 60 [ip]] ++
          (models.subzoneList subzone).map (fun s =>
            models.Call.AddRecord
              (s ++ "." ++ ((env.isValidHostname mainzone).1 ++ "." ++ env.conf.Zone)) "A" 60
              [ip]) ∧
      (models.orm.FindOneByQuery "Hostname" (env.isValidHostname mainzone).1
          (models.RegisterDns env mainzone subzone "" ip w).2).1 =
        some ⟨w.nextID, (env.isValidHostname mainzone).1, subzone, ip,
          env.tokenGenerator w.seed, env.now⟩ := by
  have heq := models.create_path_eq env mainzone subzone ip w b0 _ hne hvalid hbl hsubs
    hunreg hout
  have ha : (models.powerdns.AddRecord ((env.isValidHostname mainzone).1 ++ "." ++ env.conf.Zone)
      "A" 60 [ip] (models.created env (env.isValidHostname mainzone).1 subzone ip w
        (true :: (List.replicate (models.subzoneList subzone).length true ++ rest)))).1 = true := by
    rw [models.powerdns.AddRecord_fst]; rfl
  have hs := models.addSubzones_ok ((env.isValidHostname mainzone).1 ++ "." ++ env.conf.Zone) ip
    (models.subzoneList subzone)
    (models.powerdns.AddRecord ((env.isValidHostname mainzone).1 ++ "." ++ env.conf.Zone)
      "A" 60 [ip] (models.created env (env.isValidHostname mainzone).1 subzone ip w
        (true :: (List.replicate (models.subzoneList subzone).length true ++ rest)))).2 rest
    (by rw [models.powerdns.AddRecord_snd]; rfl)
  have hf := models.addSubzones_frame ((env.isValidHostname mainzone).1 ++ "." ++ env.conf.Zone)
    ip (models.subzoneList subzone)
    (models.powerdns.AddRecord ((env.isValidHostname mainzone).1 ++ "." ++ env.conf.Zone)
      "A" 60 [ip] (models.created env (env.isValidHostname mainzone).1 subzone ip w
        (true :: (List.replicate (models.subzoneList subzone).length true ++ rest)))).2
  rw [ha, hs.1] at heq
  simp only [Bool.true_eq_false, if_false] at heq
  rw [heq]
  refine ⟨rfl, ?_, ?_⟩
  · rw [hs.2.2, models.powerdns.AddRecord_snd]
    simp [models.created]
  · rw [models.orm.FindOneByQuery_fst, hs.2.1, hnext, hf.1, models.powerdns.AddRecord_snd]
    simp only [models.created, if_true]
    rw [List.find?_append, models.find_hostname_none w.rows _ hunreg]
    simp [models.newHost, models.field_Hostname]

/-- Witness of C5: registering `flat` with the subzones `bbbb,cccc` on the
sample store, every call succeeding. -/
theorem registerDns_create_witness :
    (models.RegisterDns models.sampleEnv "flat" "bbbb,cccc" "" "2.2.2.2"
        { models.sampleWorld with
          outcomes := [true, true, true, true, true, true, true] }).1 = (none, "tok1") ∧
      (models.orm.FindOneByQuery "Hostname" "flat"
          (models.RegisterDns models.sampleEnv "flat" "bbbb,cccc" "" "2.2.2.2"
            { models.sampleWorld with
              outcomes := [true, true, true, true, true, true, true] }).2).1 =
        some ⟨2, "flat", "bbbb,cccc", "2.2.2.2", "tok1", 100⟩ :=
  have h := registerDns_create models.sampleEnv "flat" "bbbb,cccc" "2.2.2.2"
    { models.sampleWorld with outcomes := [true, true, true, true, true, true, true] }
    true [true] (by decide) (by decide) (by decide) (by decide) (by decide) (by decide)
    (by decide)
  ⟨h.1, h.2.2⟩

/-- C2: for a valid, not deny-listed, unregistered mainzone and valid
subzones, when the create of the row succeeded and then a remote add fails
(`k = 0`: the add of the main record; `k > 0`: the add of the `k`-th subzone
after the adds before it succeeded), and every call of the compensation
succeeds, `RegisterDns` returns "Internal error" and an empty token, and in the
final state no row has the hostname and no address record exists for the
mainzone or any of its subzones. -/
theorem registerDns_rollback (env : models.Env) (mainzone subzone ip : String)
    (w : models.World) (b0 : Bool) (k : Nat) (rest : List Bool)
    (hne : mainzone ≠ "")
    (hvalid : (env.isValidHostname mainzone).2 = true)
    (hbl : models.stringInSlice (env.isValidHostname mainzone).1 env.conf.Blacklist = false)
    (hsubs : ∀ s ∈ models.subzoneList subzone, (env.isValidHostname s).2 = true)
    (hunreg : ∀ r ∈ w.rows, r.Hostname ≠ (env.isValidHostname mainzone).1)
    (hk : k ≤ (models.subzoneList subzone).length)
    (hout : w.outcomes = b0 :: true :: true :: (List.replicate k true ++ false :: rest))
    (hrest : ∀ b ∈ rest, b = true) :
    (models.RegisterDns env mainzone subzone "" ip w).1 =
        (some (.Errorf "Internal error"), "") ∧
      (∀ r ∈ (models.RegisterDns env mainzone subzone "" ip w).2.rows,
        r.Hostname ≠ (env.isValidHostname mainzone).1) ∧
      (∀ n ∈ ((env.isValidHostname mainzone).1 ++ "." ++ env.conf.Zone) ::
          (models.subzoneList subzone).map (fun s =>
            s ++ "." ++ ((env.isValidHostname mainzone).1 ++ "." ++ env.conf.Zone)),
        models.lookupA n (models.RegisterDns env mainzone subzone "" ip w).2.records = []) := by
  have heq := models.create_path_eq env mainzone subzone ip w b0 _ hne hvalid hbl hsubs
    hunreg hout
  have hcomp : ∀ v : models.World, models.AllSucceed v →
      v.rows = w.rows ++ [models.newHost env (env.isValidHostname mainzone).1 subzone ip w] →
      (∀ r ∈ (models.deleteHost env
          (models.newHost env (env.isValidHostname mainzone).1 subzone ip w) v).2.rows,
        r.Hostname ≠ (env.isValidHostname mainzone).1) ∧
      (∀ n ∈ ((env.isValidHostname mainzone).1 ++ "." ++ env.conf.Zone) ::
          (models.subzoneList subzone).map (fun s =>
            s ++ "." ++ ((env.isValidHostname mainzone).1 ++ "." ++ env.conf.Zone)),
        models.lookupA n (models.deleteHost env
          (models.newHost env (env.isValidHostname mainzone).1 subzone ip w) v).2.records = []) := by
    intro v hv hrows
    have hd := models.deleteHost_allSucceed env
      (models.newHost env (env.isValidHostname mainzone).1 subzone ip w) v hv
    refine ⟨?_, ?_⟩
    · intro r hr
      have hin := models.deleteHost_rows_sub env _ v r hr
      rw [hrows, List.mem_append, List.mem_singleton] at hin
      rcases hin with hin | rfl
      · exact hunreg r hin
      · exact absurd rfl (hd.2.1 _ hr)
    · intro n hn
      exact models.lookupA_eq_nil.2 (hd.2.2 n hn)
  cases k with
  | zero =>
    have ha : (models.powerdns.AddRecord
        ((env.isValidHostname mainzone).1 ++ "." ++ env.conf.Zone) "A" 60 [ip]
        (models.created env (env.isValidHostname mainzone).1 subzone ip w
          (List.replicate 0 true ++ false :: rest))).1 = false := by
      rw [models.powerdns.AddRecord_fst]; rfl
    rw [ha] at heq
    simp only [if_true] at heq
    rw [heq]
    refine ⟨rfl, ?_⟩
    apply hcomp
    · intro b hb
      rw [models.powerdns.AddRecord_snd] at hb
      exact hrest b hb
    · rw [models.powerdns.AddRecord_snd]; rfl
  | succ j =>
    have ha : (models.powerdns.AddRecord
        ((env.isValidHostname mainzone).1 ++ "." ++ env.conf.Zone) "A" 60 [ip]
        (models.created env (env.isValidHostname mainzone).1 subzone ip w
          (List.replicate (j + 1) true ++ false :: rest))).1 = true := by
      rw [models.powerdns.AddRecord_fst]; rfl
    have hs := models.addSubzones_fail
      ((env.isValidHostname mainzone).1 ++ "." ++ env.conf.Zone) ip (models.subzoneList subzone)
      (models.powerdns.AddRecord ((env.isValidHostname mainzone).1 ++ "." ++ env.conf.Zone)
        "A" 60 [ip] (models.created env (env.isValidHostname mainzone).1 subzone ip w
          (List.replicate (j + 1) true ++ false :: rest))).2 j rest (by omega)
      (by rw [models.powerdns.AddRecord_snd]; rfl)
    have hf := models.addSubzones_frame
      ((env.isValidHostname mainzone).1 ++ "." ++ env.conf.Zone) ip (models.subzoneList subzone)
      (models.powerdns.AddRecord ((env.isValidHostname mainzone).1 ++ "." ++ env.conf.Zone)
        "A" 60 [ip] (models.created env (env.isValidHostname mainzone).1 subzone ip w
          (List.replicate (j + 1) true ++ false :: rest))).2
    rw [ha, hs.1] at heq
    simp only [Bool.true_eq_false, if_false, if_true] at heq
    rw [heq]
    refine ⟨rfl, ?_⟩
    apply hcomp
    · intro b hb
      rw [hs.2] at hb
      exact hrest b hb
    · rw [hf.1, models.powerdns.AddRecord_snd]; rfl

/-- Witness of C2: registering `flat` with the subzones `bbbb,cccc` while the
add of `cccc` fails. -/
theorem registerDns_rollback_witness :
    (models.RegisterDns models.sampleEnv "flat" "bbbb,cccc" "" "2.2.2.2"
        { models.sampleWorld with outcomes := [true, true, true, true, true, false, true, true, true, true, true] }).1 =
        (some (.Errorf "Internal error"), "") ∧
      (∀ r ∈ (models.RegisterDns models.sampleEnv "flat" "bbbb,cccc" "" "2.2.2.2"
          { models.sampleWorld with outcomes := [true, true, true, true, true, false, true, true, true, true, true] }).2.rows,
        r.Hostname ≠ "flat") ∧
      models.lookupA "bbbb.flat.dyn.io"
        (models.RegisterDns models.sampleEnv "flat" "bbbb,cccc" "" "2.2.2.2"
          { models.sampleWorld with
            outcomes := [true, true, true, true, true, false, true, true, true, true, true] }).2.records = [] :=
  have h := registerDns_rollback models.sampleEnv "flat" "bbbb,cccc" "2.2.2.2"
    { models.sampleWorld with outcomes := [true, true, true, true, true, false, true, true, true, true, true] }
    true 2 [true, true, true, true, true] (by decide) (by decide) (by decide) (by decide)
    (by decide) (by decide) (by decide) (by decide)
  ⟨h.1, h.2.1, h.2.2 "bbbb.flat.dyn.io" (by decide)⟩

/-- Witness of C6: registering the stored hostname `home` again. -/
theorem registerDns_existing_witness :
    (models.RegisterDns models.sampleEnv "home" "" "" "2.2.2.2" models.sampleWorld).1 =
        (some (.Errorf "Host already registered"), "") ∧
      (models.RegisterDns models.sampleEnv "home" "" "" "2.2.2.2" models.sampleWorld).2.rows =
        models.sampleWorld.rows ∧
      (models.RegisterDns models.sampleEnv "home" "" "" "2.2.2.2" models.sampleWorld).2.records =
        models.sampleWorld.records :=
  have h := registerDns_existing models.sampleEnv "home" "" "2.2.2.2" models.sampleWorld
    ⟨1, "home", "cam1", "1.1.1.1", "tok0", 90⟩ (by decide)
  ⟨Prod.ext (h.2.2.2.2.2.2 (by decide) (by decide) (by decide) (by decide) (by decide)) h.1,
    h.2.2.1, h.2.2.2.1⟩

/-- C6, as stated, fails: the hostname `home` is stored, yet registering it
again with the invalid subzone `x` answers "Invalid hostname", and registering
it while the zone lookup fails answers "Internal error". -/
theorem existing_host_other_error :
    (∃ r ∈ models.sampleWorld.rows, r.Hostname = "home") ∧
      (models.RegisterDns models.sampleEnv "home" "x" "" "2.2.2.2" models.sampleWorld).1.1 =
        some (.Errorf "Invalid hostname") ∧
      (∃ r ∈ models.zoneDownWorld.rows, r.Hostname = "home") ∧
      (models.RegisterDns models.sampleEnv "home" "" "" "2.2.2.2" models.zoneDownWorld).1.1 =
        some (.Errorf "Internal error") := by
  decide

/-- C7 (amended): in the update flow (non-empty token), when the Host found
has a `Subzones` string equal to the requested one, no remote delete and no
remote add is issued. -/
theorem registerDns_same_subzones (env : models.Env) (mainzone subzone token ip : String)
    (w : models.World) (h : models.Host)
    (htok : token ≠ "")
    (hfind : (models.orm.FindOneByQuery "Hostname" (env.isValidHostname mainzone).1 w).1 =
      some h)
    (hsame : h.Subzones = subzone) :
    ∃ cs, (models.RegisterDns env mainzone subzone token ip w).2.trace = w.trace ++ cs ∧
      ∀ c ∈ cs, c.addsOrDeletes = false := by
  unfold models.RegisterDns
  simp only [models.subzones_invalid_iff, hfind, htok, hsame, Option.getD_some, if_false,
    ne_eq, not_true_eq_false]
  split_ifs <;>
    simp_all [models.powerdns.GetZone_snd, models.orm.FindOneByQuery_snd,
      models.orm.Save_trace, models.powerdns.ChangeRecord_snd, models.Call.addsOrDeletes]

/-- Witness of C7 (amended): an update of `home` that keeps the subzone string
`aaaa,bbbb` and changes the ip. -/
theorem registerDns_same_subzones_witness :
    ∃ cs, (models.RegisterDns models.sampleEnv "home" "aaaa,bbbb" "tok0" "6.6.6.6"
        models.twoSubsWorld).2.trace = models.twoSubsWorld.trace ++ cs ∧
      ∀ c ∈ cs, c.addsOrDeletes = false :=
  registerDns_same_subzones models.sampleEnv "home" "aaaa,bbbb" "tok0" "6.6.6.6"
    models.twoSubsWorld ⟨1, "home", "aaaa,bbbb", "1.1.1.1", "tok0", 90⟩ (by decide) (by decide)
    (by decide)

/-- C7, as stated, fails: the stored `aaaa,bbbb` and the requested `bbbb,aaaa`
name the same set of labels, yet the update deletes both subzone records and
adds both again. -/
theorem registerDns_reordered_subzones :
    (∀ s, s ∈ models.subzoneList "aaaa,bbbb" ↔ s ∈ models.subzoneList "bbbb,aaaa") ∧
      (models.RegisterDns models.sampleEnv "home" "bbbb,aaaa" "tok0" "1.1.1.1"
          models.twoSubsWorld).2.trace =
        [models.Call.FindOneByQuery "Hostname" "home", .GetZone "dyn.io",
          .DeleteRecord "aaaa.home.dyn.io" "A", .DeleteRecord "bbbb.home.dyn.io" "A",
          .AddRecord "bbbb.home.dyn.io" "A" 60 ["1.1.1.1"],
          .AddRecord "aaaa.home.dyn.io" "A" 60 ["1.1.1.1"],
          .Save ⟨1, "home", "bbbb,aaaa", "1.1.1.1", "tok0", 90⟩] := by
  refine ⟨?_, by decide⟩
  have h1 : models.subzoneList "aaaa,bbbb" = ["aaaa", "bbbb"] := by decide
  have h2 : models.subzoneList "bbbb,aaaa" = ["bbbb", "aaaa"] := by decide
  intro s
  rw [h1, h2]
  simp only [List.mem_cons, List.mem_singleton, List.not_mem_nil, or_false]
  exact or_comm

namespace models

/-- The update flow never reads the token: any two non-empty tokens give the
same result and the same final world. -/
theorem update_flow_any_token (env : Env) (mainzone subzone ip t1 t2 : String) (w : World)
    (h1 : t1 ≠ "") (h2 : t2 ≠ "") :
    RegisterDns env mainzone subzone t1 ip w = RegisterDns env mainzone subzone t2 ip w := by
  unfold RegisterDns
  simp only [h1, h2, if_false]

end models

/-- C1, evaluated: the token `bogus` belongs to no stored Host, yet
`RegisterDns` for the stored hostname `home` returns no error and the token of
that Host, changes the main record and saves the row with the new ip. -/
theorem registerDns_unknown_token :
    (∀ r ∈ models.sampleWorld.rows, r.Token ≠ "bogus") ∧
      (models.RegisterDns models.sampleEnv "home" "cam1" "bogus" "6.6.6.6"
          models.sampleWorld).1 = (none, "tok0") ∧
      (models.RegisterDns models.sampleEnv "home" "cam1" "bogus" "6.6.6.6"
          models.sampleWorld).2.rows = [⟨1, "home", "cam1", "6.6.6.6", "tok0", 100⟩] ∧
      (models.RegisterDns models.sampleEnv "home" "cam1" "bogus" "6.6.6.6"
          models.sampleWorld).2.trace =
        [models.Call.FindOneByQuery "Hostname" "home", .GetZone "dyn.io",
          .ChangeRecord "home.dyn.io" "A" 60 ["6.6.6.6"],
          .Save ⟨1, "home", "cam1", "6.6.6.6", "tok0", 90⟩] ∧
      (models.DeleteDns models.sampleEnv "bogus" models.sampleWorld).1 =
        some (.Errorf "Unknown token") ∧
      (models.UpdateDns models.sampleEnv "bogus" "6.6.6.6" models.sampleWorld).1 =
        some (.Errorf "Unknown token") := by
  decide

/-- C3, evaluated: the stored Host `home` has the subzone `cam1`; an update
to `bbbb,cccc` in which the add of `cccc` fails answers "Internal error" and
deletes the row, the main record and the record of `cam1`, but the record of
`bbbb`, created in this call, is still there and no delete was issued for it. -/
theorem update_rollback_leaves_record :
    (models.RegisterDns models.sampleEnv "home" "bbbb,cccc" "tok0" "1.1.1.1"
        models.secondAddFailsWorld).1 = (some (.Errorf "Internal error"), "") ∧
      (models.RegisterDns models.sampleEnv "home" "bbbb,cccc" "tok0" "1.1.1.1"
        models.secondAddFailsWorld).2.rows = [] ∧
      (models.RegisterDns models.sampleEnv "home" "bbbb,cccc" "tok0" "1.1.1.1"
        models.secondAddFailsWorld).2.records =
          [⟨"bbbb.home.dyn.io", "A", 60, ["1.1.1.1"]⟩] ∧
      (models.RegisterDns models.sampleEnv "home" "bbbb,cccc" "tok0" "1.1.1.1"
        models.secondAddFailsWorld).2.trace =
          [models.Call.FindOneByQuery "Hostname" "home", .GetZone "dyn.io",
            .DeleteRecord "cam1.home.dyn.io" "A",
            .AddRecord "bbbb.home.dyn.io" "A" 60 ["1.1.1.1"],
            .AddRecord "cccc.home.dyn.io" "A" 60 ["1.1.1.1"],
            .GetZone "dyn.io", .DeleteRecord "cam1.home.dyn.io" "A",
            .DeleteRecord "home.dyn.io" "A",
            .Delete ⟨1, "home", "cam1", "1.1.1.1", "tok0", 90⟩] := by
  decide

/-- C4, evaluated: the stored Host `home` has the subzone `cam1` and both
records point to `1.1.1.1`; a successful update through `RegisterDns` to the ip
`6.6.6.6` with the same subzones leaves the record of `cam1` at `1.1.1.1`,
whereas `UpdateDns` with the same token and ip re-points it. -/
theorem registerDns_stale_subzone :
    (models.RegisterDns models.sampleEnv "home" "cam1" "tok0" "6.6.6.6"
        models.sampleWorld).1 = (none, "tok0") ∧
      (models.RegisterDns models.sampleEnv "home" "cam1" "tok0" "6.6.6.6"
        models.sampleWorld).2.records =
          [⟨"cam1.home.dyn.io", "A", 60, ["1.1.1.1"]⟩, ⟨"home.dyn.io", "A", 60, ["6.6.6.6"]⟩] ∧
      (models.RegisterDns models.sampleEnv "home" "cam1" "tok0" "6.6.6.6"
        models.sampleWorld).2.rows = [⟨1, "home", "cam1", "6.6.6.6", "tok0", 100⟩] ∧
      (models.UpdateDns models.sampleEnv "tok0" "6.6.6.6" models.sampleWorld).2.records =
          [⟨"home.dyn.io", "A", 60, ["6.6.6.6"]⟩, ⟨"cam1.home.dyn.io", "A", 60, ["6.6.6.6"]⟩] := by
  decide

/-- Witness of C9: on the sweep store, with the cutoff at day 70, `oldy` and
`gone` go through the delete path although calls fail for `oldy`, and `home`,
last updated on day 70, keeps its row and its records. -/
theorem removeExpired_spec_witness :
    (models.removeExpired models.sampleEnv models.sweepWorld).trace =
        [models.Call.FindAll, .GetZone "dyn.io", .DeleteRecord "web1.oldy.dyn.io" "A",
          .DeleteRecord "oldy.dyn.io" "A", .Delete ⟨2, "oldy", "web1", "2.2.2.2", "tok1", 10⟩,
          .GetZone "dyn.io", .DeleteRecord "gone.dyn.io" "A",
          .Delete ⟨3, "gone", "", "3.3.3.3", "tok2", 69⟩] ∧
      (⟨1, "home", "cam1", "1.1.1.1", "tok0", 70⟩ : models.Host) ∈
        (models.removeExpired models.sampleEnv models.sweepWorld).rows ∧
      (⟨"cam1.home.dyn.io", "A", 60, ["1.1.1.1"]⟩ : models.RRset) ∈
        (models.removeExpired models.sampleEnv models.sweepWorld).records := by
  have h := removeExpired_spec models.sampleEnv models.sweepWorld models.sweepWorld.rows
    (by decide)
  refine ⟨?_, ?_, ?_⟩
  · rw [h.2.2.1]; decide
  · exact h.2.2.2.1 _ (by decide) (by decide) (by decide)
  · exact h.2.2.2.2 _ (by decide) (by decide)

/-- C5, as stated, fails: `flat` is a valid, not deny-listed mainzone without
a stored Host and `ab` is a valid subzone (it passes `isValidSubHostname`), yet
with every call succeeding `RegisterDns` answers "Invalid hostname" and issues
no call, since it checks subzones with the main-zone validator; and with all
inputs valid but the zone lookup failing it answers "Internal error" although
no store create and no remote add failed. -/
theorem registerDns_short_subzone :
    haproxy.isValidSubHostname "ab" = true ∧
      (models.sampleEnv.isValidHostname "flat").2 = true ∧
      models.stringInSlice "flat" models.sampleEnv.conf.Blacklist = false ∧
      (∀ r ∈ models.sampleWorld.rows, r.Hostname ≠ "flat") ∧
      models.sampleWorld.outcomes = [] ∧
      (models.RegisterDns models.sampleEnv "flat" "ab" "" "2.2.2.2" models.sampleWorld).1 =
        (some (.Errorf "Invalid hostname"), "") ∧
      (models.RegisterDns models.sampleEnv "flat" "ab" "" "2.2.2.2" models.sampleWorld).2.trace =
        [] ∧
      (models.RegisterDns models.sampleEnv "flat" "ab" "" "2.2.2.2" models.sampleWorld).2.rows =
        models.sampleWorld.rows ∧
      (models.RegisterDns models.sampleEnv "flat" "" "" "2.2.2.2" models.zoneDownWorld).1 =
        (some (.Errorf "Internal error"), "") ∧
      (models.RegisterDns models.sampleEnv "flat" "" "" "2.2.2.2" models.zoneDownWorld).2.trace =
        [models.Call.FindOneByQuery "Hostname" "flat", .GetZone "dyn.io"] := by
  decide
